import Mathlib

/-!
Verification of the indiekit-endpoint-conversations interaction-collection
pipeline.  The JavaScript sources are shallowly embedded: MongoDB
collections become Lean lists of documents, timestamps become opaque
strings supplied by the caller, fallible adapter calls become Except
values, and JavaScript truthiness on optional strings is modelled
explicitly (a missing value and the empty string are both falsy).
-/

/-- JavaScript truthiness for an optional string: undefined/null and the
empty string are falsy, every other string is truthy. -/
def jsTruthyStr : Option String → Bool
  | none => false
  | some s => !(s = "")

/-- JavaScript expression a or-else b on optional strings, as in
content.text or content.html: the first truthy operand, else none. -/
def jsFirstTruthy (a b : Option String) : Option String :=
  if jsTruthyStr a then a else if jsTruthyStr b then b else none

/-- Model of the JavaScript includes method on strings: does pat occur as a
contiguous substring of s (list-of-characters view)? -/
def listIsPrefix : List Char → List Char → Bool
  | _, [] => true
  | [], _ :: _ => false
  | a :: as, b :: bs => a = b && listIsPrefix as bs

/-- Substring search over the character list, scanning left to right. -/
def listHasSubstr (s pat : List Char) : Bool :=
  match s with
  | [] => pat.isEmpty
  | _ :: rest => listIsPrefix s pat || listHasSubstr rest pat

/-- JavaScript s.includes(pat). -/
def jsIncludes (s pat : String) : Bool :=
  listHasSubstr s.data pat.data

/-- Case-insensitive literal prefix test (for regexes carrying the i flag). -/
def ciIsPrefix : List Char → List Char → Bool
  | _, [] => true
  | [], _ :: _ => false
  | a :: as, b :: bs => a.toLower = b.toLower && ciIsPrefix as bs

/-- JavaScript s.toLowerCase(), computed character by character. -/
def lowerStr (s : String) : String :=
  String.mk (s.data.map Char.toLower)

/-- JavaScript s.startsWith(pre). -/
def jsStartsWith (s pre : String) : Bool :=
  listIsPrefix s.data pre.data

/-!
Dedup store (src/lib/storage/conversation-items.js).

A ConversationItem document is the payload written by upsertConversationItem
plus the two lifecycle timestamps.  The optional created_at field models a
field that some call sites (the push-ingest path) leave absent.
-/

/-- Author card carried on every conversation item. -/
structure Author where
  name : String
  url : String
  photo : String
deriving Repr, DecidableEq

/-- Payload of one reaction as passed to upsertConversationItem. -/
structure ConvItem where
  canonical_url : String
  source : String
  type : String
  author : Author
  content : Option String
  url : String
  bridgy_url : Option String
  platform_id : String
  created_at : Option String
deriving Repr, DecidableEq

/-- Stored document: the item fields plus the lifecycle timestamps.
received_at is written once by the inserting call ($setOnInsert);
updated_at is rewritten by every call ($set). -/
structure ConvDoc where
  item : ConvItem
  received_at : String
  updated_at : String
deriving Repr, DecidableEq

/-- Model of upsertConversationItem: findOneAndUpdate keyed on
(canonical_url, platform_id) with upsert.  If a document with the key
exists, its payload fields are overwritten ($set of the spread item) and
updated_at is set to now while received_at is kept; otherwise a new
document is appended with received_at = updated_at = now. -/
def upsertConversationItem (store : List ConvDoc) (item : ConvItem) (now : String) :
    List ConvDoc :=
  match store with
  | [] => [{ item := item, received_at := now, updated_at := now }]
  | d :: rest =>
    if d.item.canonical_url = item.canonical_url ∧ d.item.platform_id = item.platform_id then
      { item := item, received_at := d.received_at, updated_at := now } :: rest
    else
      d :: upsertConversationItem rest item now

/-- Number of stored documents carrying the given dedup key. -/
def countKey (store : List ConvDoc) (cu pid : String) : Nat :=
  store.countP (fun d => decide (d.item.canonical_url = cu ∧ d.item.platform_id = pid))

/-- Fold a list of items into the store through upsertConversationItem,
as the poll loop does one notification at a time. -/
def applyUpserts (store : List ConvDoc) (items : List ConvItem) (now : String) :
    List ConvDoc :=
  items.foldl (fun s it => upsertConversationItem s it now) store

/-!
Webmention classifier (src/lib/ingestion/webmention-classifier.js).

Inbound push payload: the fields of the JavaScript webmention object that
the classifier, the dedup-key generator and the ingest endpoint read.
Missing object fields are none; the author card, when present, carries its
url as a plain string (a missing author url is the empty string, which is
what the JavaScript or-else with the empty-string default produces).
-/

/-- Push-delivered reaction descriptor, as read by classifyWebmention,
generatePlatformId and the ingest endpoint. -/
structure Webmention where
  source : Option String
  target : Option String
  author : Option Author
  contentText : Option String
  contentHtml : Option String
  wmProperty : Option String
deriving Repr, DecidableEq

/-- Classification result of a push-delivered reaction. -/
structure Classification where
  source : String
  type : String
  bridgy_url : Option String
  confidence : String
deriving Repr, DecidableEq

/-- Actions recognised by the Bridgy URL pattern, in regex alternation order. -/
def bridgyActions : List String := ["comment", "like", "repost", "mention"]

/-- Platforms recognised by the Bridgy URL pattern, in regex alternation order. -/
def bridgyPlatforms : List String := ["mastodon", "bluesky", "twitter", "flickr", "github"]

/-- Try the Bridgy pattern at the start of the (already lowercased)
character list: brid.gy/ then an action, a slash, a platform, a slash.
Mirrors one anchored attempt of the case-insensitive regex. -/
def matchBridgyAt (cs : List Char) : Option (String × String) :=
  if listIsPrefix cs "brid.gy/".data then
    let rest := cs.drop 8
    bridgyActions.findSome? (fun a =>
      if listIsPrefix rest (a.data ++ ['/']) then
        let rest2 := rest.drop (a.data.length + 1)
        bridgyPlatforms.findSome? (fun p =>
          if listIsPrefix rest2 (p.data ++ ['/']) then some (a, p) else none)
      else none)
  else none

/-- Leftmost match of the Bridgy pattern over the lowercased source. -/
def scanBridgy : List Char → Option (String × String)
  | [] => none
  | c :: cs =>
    match matchBridgyAt (c :: cs) with
    | some r => some r
    | none => scanBridgy cs

/-- Model of source.match of the case-insensitive Bridgy regex; the
captures are returned lowercased, which is how the mapping functions
consume them. -/
def bridgyMatch (source : String) : Option (String × String) :=
  scanBridgy (lowerStr source).data

/-- Map Bridgy platform names to source tags. -/
def mapBridgyPlatform (platform : String) : String :=
  match lowerStr platform with
  | "mastodon" => "mastodon"
  | "bluesky" => "bluesky"
  | "twitter" => "twitter"
  | "flickr" => "flickr"
  | "github" => "github"
  | _ => "webmention"

/-- Map Bridgy action names to interaction types. -/
def mapBridgyAction (action : String) : String :=
  match lowerStr action with
  | "comment" => "reply"
  | "like" => "like"
  | "repost" => "repost"
  | "mention" => "mention"
  | _ => "mention"

/-- Map a declared wm-property to an interaction type. -/
def mapWmProperty (property : String) : String :=
  match property with
  | "in-reply-to" => "reply"
  | "like-of" => "like"
  | "repost-of" => "repost"
  | "bookmark-of" => "bookmark"
  | "mention-of" => "mention"
  | _ => "mention"

/-- Infer the interaction type from case-sensitive URL keyword substrings. -/
def inferTypeFromUrl (url : String) : String :=
  if url = "" then "mention"
  else if jsIncludes url "/reply" || jsIncludes url "/comment" then "reply"
  else if jsIncludes url "/like" || jsIncludes url "/favourite" then "like"
  else if jsIncludes url "/repost" || jsIncludes url "/reblog" then "repost"
  else "mention"

/-- Does the URL carry a known fediverse instance-name fragment
(case-insensitively)? -/
def isFediverseUrl (url : String) : Bool :=
  if url = "" then false
  else
    let lower := lowerStr url
    jsIncludes lower "mastodon." || jsIncludes lower "mstdn." ||
    jsIncludes lower "fosstodon." || jsIncludes lower "pleroma." ||
    jsIncludes lower "misskey." || jsIncludes lower "pixelfed."

/-- The source URL as the classifier reads it: missing becomes empty. -/
def wmSource (w : Webmention) : String := w.source.getD ""

/-- The author URL as the classifier reads it: missing becomes empty. -/
def wmAuthorUrl (w : Webmention) : String :=
  match w.author with
  | some a => a.url
  | none => ""

/-- Model of classifyWebmention: the ordered rule cascade of the source,
first match wins. -/
def classifyWebmention (w : Webmention) : Classification :=
  let source := wmSource w
  let authorUrl := wmAuthorUrl w
  match bridgyMatch source with
  | some (action, platform) =>
    { source := mapBridgyPlatform platform, type := mapBridgyAction action,
      bridgy_url := some source, confidence := "high" }
  | none =>
    if jsIncludes source "fed.brid.gy" then
      { source := "mastodon", type := inferTypeFromUrl source,
        bridgy_url := some source, confidence := "high" }
    else if jsIncludes authorUrl "bsky.app" || jsIncludes source "bsky.app" then
      { source := "bluesky", type := inferTypeFromUrl source,
        bridgy_url := none, confidence := "medium" }
    else if isFediverseUrl authorUrl || isFediverseUrl source then
      { source := "mastodon", type := inferTypeFromUrl source,
        bridgy_url := none, confidence := "medium" }
    else
      { source := "webmention",
        type := if jsTruthyStr w.wmProperty then mapWmProperty (w.wmProperty.getD "")
                else inferTypeFromUrl source,
        bridgy_url := none, confidence := "low" }

/-- Raw pattern of each of the five classifier rules, indexed 0 to 4 in
priority order; rule 4 is the open-web default and always applies. -/
def rulePattern (w : Webmention) : Nat → Bool
  | 0 => (bridgyMatch (wmSource w)).isSome
  | 1 => jsIncludes (wmSource w) "fed.brid.gy"
  | 2 => jsIncludes (wmAuthorUrl w) "bsky.app" || jsIncludes (wmSource w) "bsky.app"
  | 3 => isFediverseUrl (wmAuthorUrl w) || isFediverseUrl (wmSource w)
  | _ => true

/-- Outcome of each of the five classifier rules, written from the spec
description of the rules so the cascade can be compared against it. -/
def ruleOutcome (w : Webmention) : Nat → Classification
  | 0 =>
    match bridgyMatch (wmSource w) with
    | some (action, platform) =>
      { source := mapBridgyPlatform platform, type := mapBridgyAction action,
        bridgy_url := some (wmSource w), confidence := "high" }
    | none =>
      { source := "webmention", type := "mention", bridgy_url := none, confidence := "low" }
  | 1 =>
    { source := "mastodon", type := inferTypeFromUrl (wmSource w),
      bridgy_url := some (wmSource w), confidence := "high" }
  | 2 =>
    { source := "bluesky", type := inferTypeFromUrl (wmSource w),
      bridgy_url := none, confidence := "medium" }
  | 3 =>
    { source := "mastodon", type := inferTypeFromUrl (wmSource w),
      bridgy_url := none, confidence := "medium" }
  | _ =>
    { source := "webmention",
      type := if jsTruthyStr w.wmProperty then mapWmProperty (w.wmProperty.getD "")
              else inferTypeFromUrl (wmSource w),
      bridgy_url := none, confidence := "low" }

/-- Dedup-key generation from the source URL: a Mastodon status-id pattern,
then a Bluesky record-key pattern, then the whole URL as fallback.
One anchored attempt of the Mastodon pattern: a slash, an at sign, one or
more non-slash characters, a slash, then a captured run of digits. -/
def matchMastodonIdAt (cs : List Char) : Option String :=
  match cs with
  | '/' :: '@' :: rest =>
    if (rest.takeWhile (fun c => !(c = '/'))).isEmpty then none
    else
      match rest.dropWhile (fun c => !(c = '/')) with
      | '/' :: rest3 =>
        let ds := rest3.takeWhile Char.isDigit
        if ds.isEmpty then none else some (String.mk ds)
      | _ => none
  | _ => none

/-- Leftmost match of the Mastodon status-id pattern. -/
def scanMastodonId : List Char → Option String
  | [] => none
  | c :: cs =>
    match matchMastodonIdAt (c :: cs) with
    | some d => some d
    | none => scanMastodonId cs

/-- Record-key alphabet of the Bluesky pattern (letters and digits, the
regex is case-insensitive but captures the original characters). -/
def isRkeyChar (c : Char) : Bool :=
  c.isDigit || (('a' ≤ c.toLower) && (c.toLower ≤ 'z'))

/-- One anchored attempt of the case-insensitive Bluesky pattern:
bsky.app/profile/ then a handle, /post/ and a captured record key. -/
def matchBskyAt (cs : List Char) : Option String :=
  if ciIsPrefix cs "bsky.app/profile/".data then
    let rest := cs.drop 17
    let handle := rest.takeWhile (fun c => !(c = '/'))
    if handle.isEmpty then none
    else
      let rest2 := rest.drop handle.length
      if ciIsPrefix rest2 "/post/".data then
        let rkey := (rest2.drop 6).takeWhile isRkeyChar
        if rkey.isEmpty then none else some (String.mk rkey)
      else none
  else none

/-- Leftmost match of the Bluesky record-key pattern. -/
def scanBsky : List Char → Option String
  | [] => none
  | c :: cs =>
    match matchBskyAt (c :: cs) with
    | some d => some d
    | none => scanBsky cs

/-- Model of generatePlatformId: platform-specific dedup key derived from
the source URL, falling back to the whole URL. -/
def generatePlatformId (w : Webmention) : String :=
  let source := wmSource w
  match scanMastodonId source.data with
  | some id => "mastodon:" ++ id
  | none =>
    match scanBsky source.data with
    | some rkey => "bluesky:" ++ rkey
    | none => "webmention:" ++ source

/-!
Canonical resolver (src/lib/matching/syndication-map.js).

The posts collection is a list of post documents (properties.syndication
and properties.url); an absent collection is none.
-/

/-- One owner post as seen by the resolver. -/
structure Post where
  syndication : List String
  url : Option String
deriving Repr, DecidableEq

/-- Model of findCanonicalPost: first post whose syndication links contain
the URL; its own URL, with the JavaScript or-else-null turning a missing
or empty url into none. -/
def findCanonicalPost (posts : Option (List Post)) (syndicationUrl : String) :
    Option String :=
  match posts with
  | none => none
  | some ps =>
    match ps.find? (fun p => p.syndication.contains syndicationUrl) with
    | none => none
    | some p =>
      match p.url with
      | some u => if u = "" then none else some u
      | none => none

/-- Model of resolveCanonicalUrl, instrumented: the second component
records whether the findCanonicalPost lookup was performed. -/
def resolveCanonicalUrlT (posts : Option (List Post)) (targetUrl siteUrl : String) :
    String × Bool :=
  if jsStartsWith targetUrl siteUrl then (targetUrl, false)
  else ((findCanonicalPost posts targetUrl).getD targetUrl, true)

/-- Model of resolveCanonicalUrl, value only. -/
def resolveCanonicalUrl (posts : Option (List Post)) (targetUrl siteUrl : String) :
    String :=
  (resolveCanonicalUrlT posts targetUrl siteUrl).1

/-!
Scheduler state (src/lib/polling/scheduler.js).

The poll_cursors singleton document; each optional field is none while the
corresponding MongoDB field is absent.  A source poll builds a set of
field writes (the updateFields object passed to the $set of
findOneAndUpdate) and applies it; a field not in the update document is
left untouched, which models the difference between not writing a cursor
and writing it back with the same value.
-/

/-- Error thrown by an adapter call, as inspected by the scheduler. -/
structure PollError where
  status : Option Nat
  message : String
deriving Repr, DecidableEq

/-- Fields of the poll_cursors singleton touched by the Mastodon and
Bluesky poll paths. -/
structure PollState where
  mastodon_since_id : Option String
  mastodon_last_poll : Option String
  mastodon_last_error : Option String
  bluesky_cursor : Option String
  bluesky_last_poll : Option String
  bluesky_last_error : Option String
deriving Repr, DecidableEq

/-- The $set document one source poll sends: for each field, none means
the field is absent from the update (no write), some v means a write of v.
The last-error slot can be an explicit write of null (some none). -/
structure SourceUpdate where
  cursor : Option String
  last_poll : Option String
  last_error : Option (Option String)
deriving Repr, DecidableEq

/-- Normalized Mastodon notification as returned by the adapter; only the
fields read by the scheduler and the claims are carried. -/
structure MastoNotif where
  platform_id : String
  type : String
  author : Author
  content : Option String
  url : String
  lookup_url : Option String
  in_reply_to_id : Option String
  created_at : String
  raw_id : String
  raw_type : String
deriving Repr, DecidableEq

/-- Normalized Bluesky notification (payload fields only). -/
structure BskyNotif where
  platform_id : String
  type : String
  author : Author
  content : Option String
  url : String
  lookup_url : Option String
  created_at : String
deriving Repr, DecidableEq

/-- Result of fetchBlueskyNotifications: items plus the pagination cursor
the platform returned (absent when the response carried none). -/
structure BskyResult where
  items : List BskyNotif
  cursor : Option String
deriving Repr, DecidableEq

/-- The updateFields object built by pollMastodon from the adapter
outcome: on success the last poll time and a null last error, plus the
cursor only when at least one notification came back (set to the raw id
of the first one); on a thrown error the last poll time and the error
message, and no cursor write. -/
def mastodonUpdateFields (res : Except PollError (List MastoNotif)) (now : String) :
    SourceUpdate :=
  match res with
  | .ok notifications =>
    { cursor := match notifications with
        | [] => none
        | n :: _ => some n.raw_id,
      last_poll := some now,
      last_error := some none }
  | .error e =>
    { cursor := none, last_poll := some now, last_error := some (some e.message) }

/-- The updateFields object built by pollBluesky from the adapter outcome:
the cursor is written only when the result carries a truthy cursor. -/
def blueskyUpdateFields (res : Except PollError BskyResult) (now : String) :
    SourceUpdate :=
  match res with
  | .ok result =>
    { cursor := if jsTruthyStr result.cursor then result.cursor else none,
      last_poll := some now,
      last_error := some none }
  | .error e =>
    { cursor := none, last_poll := some now, last_error := some (some e.message) }

/-- Apply a Mastodon update document to the state: absent fields keep
their stored value. -/
def applyMastodonUpdate (st : PollState) (u : SourceUpdate) : PollState :=
  { st with
    mastodon_since_id := match u.cursor with
      | some v => some v
      | none => st.mastodon_since_id,
    mastodon_last_poll := match u.last_poll with
      | some v => some v
      | none => st.mastodon_last_poll,
    mastodon_last_error := match u.last_error with
      | some v => v
      | none => st.mastodon_last_error }

/-- Apply a Bluesky update document to the state: absent fields keep
their stored value. -/
def applyBlueskyUpdate (st : PollState) (u : SourceUpdate) : PollState :=
  { st with
    bluesky_cursor := match u.cursor with
      | some v => some v
      | none => st.bluesky_cursor,
    bluesky_last_poll := match u.last_poll with
      | some v => some v
      | none => st.bluesky_last_poll,
    bluesky_last_error := match u.last_error with
      | some v => v
      | none => st.bluesky_last_error }

/-!
Scheduler interval state machine (src/lib/polling/scheduler.js).

The current interval is the module variable currentInterval; ctx models
whether pollContext is set (the scheduler is running), since backoff and
resetInterval are no-ops without it.
-/

/-- Default poll interval, five minutes in milliseconds. -/
def DEFAULT_POLL_INTERVAL : Nat := 5 * 60 * 1000

/-- Maximum poll interval, thirty minutes in milliseconds. -/
def MAX_POLL_INTERVAL : Nat := 30 * 60 * 1000

/-- Model of backoff: double the interval, capped at the maximum. -/
def backoff (ctx : Bool) (cur : Nat) : Nat :=
  if !ctx then cur
  else
    let newInterval := min (cur * 2) MAX_POLL_INTERVAL
    if newInterval ≠ cur then newInterval else cur

/-- Model of resetInterval: return to the default in a single step. -/
def resetInterval (ctx : Bool) (cur : Nat) : Nat :=
  if cur ≠ DEFAULT_POLL_INTERVAL && ctx then DEFAULT_POLL_INTERVAL else cur

/-- Interval after k consecutive backoff events starting from the default. -/
def iterBackoff : Nat → Nat
  | 0 => DEFAULT_POLL_INTERVAL
  | k + 1 => backoff true (iterBackoff k)

/-- Effect of one pollMastodon call on the shared interval: success calls
resetInterval, a rate-limit or auth error calls backoff, any other error
leaves the interval alone. -/
def pollMastodonInterval (ctx : Bool) (res : Except PollError (List MastoNotif))
    (cur : Nat) : Nat :=
  match res with
  | .ok _ => resetInterval ctx cur
  | .error e =>
    if e.status = some 429 ∨ e.status = some 401 then backoff ctx cur else cur

/-- Effect of one pollBluesky call on the shared interval. -/
def pollBlueskyInterval (ctx : Bool) (res : Except PollError BskyResult)
    (cur : Nat) : Nat :=
  match res with
  | .ok _ => resetInterval ctx cur
  | .error e =>
    if e.status = some 429 ∨ e.status = some 401 then backoff ctx cur else cur

/-- Effect of one full poll cycle (Mastodon then Bluesky, the order of
runPollCycle) on the shared interval. -/
def runPollCycleInterval (ctx : Bool) (mRes : Except PollError (List MastoNotif))
    (bRes : Except PollError BskyResult) (cur : Nat) : Nat :=
  pollBlueskyInterval ctx bRes (pollMastodonInterval ctx mRes cur)

/-!
Local ActivityPub poll path (src/lib/polling/scheduler.js, pollActivityPub).
-/

/-- Normalized ActivityPub interaction as produced by the local adapter. -/
structure APInteraction where
  platform_id : String
  type : String
  author : Author
  content : Option String
  url : String
  canonical_url : Option String
  created_at : String
deriving Repr, DecidableEq

/-- The conversation item pollActivityPub builds for one interaction. -/
def mkActivityPubItem (i : APInteraction) (cu : String) : ConvItem :=
  { canonical_url := cu, source := "activitypub", type := i.type,
    author := i.author, content := i.content, url := i.url,
    bridgy_url := none, platform_id := i.platform_id,
    created_at := some i.created_at }

/-- The storage loop of pollActivityPub over the fetched interactions:
an interaction with a falsy canonical_url is dropped silently; with a
non-empty site URL, an interaction whose canonical_url does not start
with it is counted as skipped; the rest are passed to the upsert, in
order.  Returns the list of items handed to upsertConversationItem and
the skipped count. -/
def pollActivityPubUpserts (siteUrl : String) (items : List APInteraction) :
    List ConvItem × Nat :=
  match items with
  | [] => ([], 0)
  | i :: rest =>
    let tail := pollActivityPubUpserts siteUrl rest
    match i.canonical_url with
    | none => tail
    | some cu =>
      if cu = "" then tail
      else if siteUrl ≠ "" ∧ ¬ jsStartsWith cu siteUrl then (tail.1, tail.2 + 1)
      else (mkActivityPubItem i cu :: tail.1, tail.2)

/-- Is this interaction one the loop counts as skipped (truthy canonical
URL that does not start with the site URL)? -/
def isSkippedInteraction (siteUrl : String) (i : APInteraction) : Bool :=
  match i.canonical_url with
  | none => false
  | some cu => !(cu = "") && !(siteUrl = "") && !(jsStartsWith cu siteUrl)

/-!
Ingest endpoint (controller, the ingest handler).

URL validity of the JavaScript URL constructor is a platform builtin, so
the model takes the validity predicate as a parameter; everything else is
the handler's own control flow.
-/

/-- Response of the ingest handler: a 400 client error with a message, or
a 202 acceptance carrying the classification. -/
inductive IngestResponse where
  | badRequest (error : String)
  | accepted (classification : Classification)
deriving Repr, DecidableEq

/-- The conversation item the ingest handler builds from a payload that
passed validation. -/
def ingestItem (posts : Option (List Post)) (siteUrl : String) (w : Webmention) :
    ConvItem :=
  let classification := classifyWebmention w
  let source := w.source.getD ""
  { canonical_url := resolveCanonicalUrl posts (w.target.getD "") siteUrl,
    source := classification.source,
    type := classification.type,
    author := w.author.getD { name := "Unknown", url := source, photo := "" },
    content := jsFirstTruthy w.contentText w.contentHtml,
    url := source,
    bridgy_url := classification.bridgy_url,
    platform_id := generatePlatformId w,
    created_at := none }

/-- Model of the ingest handler: validation cascade, then classify,
resolve, upsert exactly once and acknowledge.  Returns the response and
the store after the call. -/
def ingest (validUrl : String → Bool) (posts : Option (List Post)) (siteUrl : String)
    (store : List ConvDoc) (w : Webmention) (now : String) :
    IngestResponse × List ConvDoc :=
  if ¬ (jsTruthyStr w.source ∧ jsTruthyStr w.target) then
    (.badRequest "source and target are required", store)
  else
    let source := w.source.getD ""
    let target := w.target.getD ""
    if ¬ (validUrl source ∧ validUrl target) then
      (.badRequest "source and target must be valid URLs", store)
    else if source = target then
      (.badRequest "source and target must be different URLs", store)
    else
      (.accepted (classifyWebmention w),
       upsertConversationItem store (ingestItem posts siteUrl w) now)

/-!
Mastodon notification fetcher (src/lib/notifications/mastodon.js).

The network is a page oracle: given the since-id of the call and the
max-id of the request, it yields the page the API would return.  A raw
notification carries the fields the normalizer reads.
-/

/-- Raw Mastodon notification as delivered by the API. -/
structure MastoRaw where
  id : String
  type : String
  account_display_name : String
  account_username : String
  account_url : String
  account_avatar : String
  status_url : Option String
  status_content : Option String
  status_in_reply_to_id : Option String
  created_at : String
deriving Repr, DecidableEq

/-- Map raw Mastodon notification kinds to interaction types. -/
def mapNotificationType (t : String) : String :=
  match t with
  | "mention" => "reply"
  | "favourite" => "like"
  | "reblog" => "repost"
  | _ => "mention"

/-- Model of normalizeNotification. -/
def normalizeNotification (n : MastoRaw) : MastoNotif :=
  { platform_id := "mastodon:" ++ n.id,
    type := mapNotificationType n.type,
    author := { name := if n.account_display_name = "" then n.account_username
                        else n.account_display_name,
                url := n.account_url, photo := n.account_avatar },
    content := jsFirstTruthy n.status_content none,
    url := (jsFirstTruthy n.status_url none).getD n.account_url,
    lookup_url := if n.type = "favourite" ∨ n.type = "reblog" ∨ n.type = "mention" then
        jsFirstTruthy n.status_url none
      else none,
    in_reply_to_id := jsFirstTruthy n.status_in_reply_to_id none,
    created_at := n.created_at,
    raw_id := n.id,
    raw_type := n.type }

/-- Pagination loop of fetchMastodonNotifications: request a page, stop on
an empty page; append; stop when the page is shorter than the limit of
40; stop when the accumulated total reached 200; otherwise continue from
the id of the last entry.  Termination: every continuing step grows the
accumulator by at least 40 while it stays below 200. -/
def fetchLoop (pages : Option String → Option String → List MastoRaw)
    (sinceId maxId : Option String) (acc : List MastoRaw) : List MastoRaw :=
  if h0 : (pages sinceId maxId).length = 0 then acc
  else if h1 : (pages sinceId maxId).length < 40 then acc ++ pages sinceId maxId
  else if h2 : 200 ≤ (acc ++ pages sinceId maxId).length then acc ++ pages sinceId maxId
  else
    match (pages sinceId maxId).getLast? with
    | some last => fetchLoop pages sinceId (some last.id) (acc ++ pages sinceId maxId)
    | none => acc ++ pages sinceId maxId
termination_by 200 - acc.length
decreasing_by
  simp only [List.length_append] at h2 ⊢
  omega

/-- Model of fetchMastodonNotifications: run the pagination loop from an
absent max-id and normalize every collected raw notification. -/
def fetchMastodonNotifications (pages : Option String → Option String → List MastoRaw)
    (sinceId : Option String) : List MastoNotif :=
  (fetchLoop pages sinceId none []).map normalizeNotification

/-!
JF2 mentions read endpoint (controller, the apiMentions handler),
target-matching part.
-/

/-- Model of target.replace of the trailing-slash regex: remove one final
slash if present. -/
def stripTrailingSlash (s : String) : String :=
  match s.data.getLast? with
  | some '/' => String.mk s.data.dropLast
  | _ => s

/-- Does a stored canonical URL match the requested target, with and
without one trailing slash (the $in query of the handler)? -/
def mentionTargetMatch (target : String) (cu : String) : Bool :=
  let clean := stripTrailingSlash target
  cu = clean || cu = clean ++ "/"

/-- Sort key used by the read endpoint: received_at descending. -/
def sortByReceivedDesc (items : List ConvDoc) : List ConvDoc :=
  items.mergeSort (fun a b => b.received_at ≤ a.received_at)

/-- Query predicate of the target branch of apiMentions: the
slash-insensitive target match plus the optional mapped type filter. -/
def apiMentionsPred (target : String) (typeFilter : Option String) (d : ConvDoc) : Bool :=
  mentionTargetMatch target d.item.canonical_url &&
  (match typeFilter with
   | some t => d.item.type = t
   | none => true)

/-- Model of the target branch of apiMentions: filter the stored items by
the query predicate, sort by received_at descending, then apply skip and
limit pagination. -/
def apiMentionsItems (store : List ConvDoc) (target : String)
    (typeFilter : Option String) (skip limitN : Nat) : List ConvDoc :=
  ((sortByReceivedDesc (store.filter (apiMentionsPred target typeFilter))).drop skip).take
    limitN

/-!
Concrete demonstration inputs used by the witness theorems.
-/

/-- A sample conversation item (first write). -/
def demoItem1 : ConvItem :=
  { canonical_url := "https://me.example/post", source := "mastodon", type := "like",
    author := { name := "Alice", url := "https://inst.example/@alice", photo := "" },
    content := none, url := "https://inst.example/@alice/1", bridgy_url := none,
    platform_id := "mastodon:1", created_at := some "2024-01-01T00:00:00Z" }

/-- The same reaction fetched again with changed payload fields. -/
def demoItem2 : ConvItem :=
  { demoItem1 with type := "repost", content := some "hello" }

/-- A push payload whose source matches both the Bridgy relay pattern and
the bsky.app social-app pattern (via its author URL). -/
def demoBridgyW : Webmention :=
  { source := some "https://brid.gy/like/bluesky/abc/", target := some "https://me.example/post",
    author := some { name := "Alice", url := "https://bsky.app/profile/alice", photo := "" },
    contentText := none, contentHtml := none, wmProperty := none }

/-- A posts collection with one syndicated post. -/
def demoPosts : Option (List Post) :=
  some [{ syndication := ["https://inst.example/@me/11"], url := some "https://me.example/post" }]

/-- Fetched ActivityPub interactions: one about the owner's site, one
foreign, one with a missing canonical URL. -/
def demoAPItems : List APInteraction :=
  [{ platform_id := "activitypub:Like:https://other.example/u:https://me.example/post",
     type := "like", author := { name := "Bob", url := "https://other.example/u", photo := "" },
     content := none, url := "https://other.example/u",
     canonical_url := some "https://me.example/post", created_at := "2024-01-01T00:00:00Z" },
   { platform_id := "activitypub:Like:https://other.example/u:https://elsewhere.example/p",
     type := "like", author := { name := "Bob", url := "https://other.example/u", photo := "" },
     content := none, url := "https://other.example/u",
     canonical_url := some "https://elsewhere.example/p", created_at := "2024-01-02T00:00:00Z" },
   { platform_id := "activitypub:Reply:https://other.example/u:",
     type := "reply", author := { name := "Bob", url := "https://other.example/u", photo := "" },
     content := some "hi", url := "https://other.example/reply/1",
     canonical_url := none, created_at := "2024-01-03T00:00:00Z" }]

/-- URL validity stand-in used by the ingest witness. -/
def demoValidUrl : String → Bool := fun s => jsStartsWith s "https://"

/-- A valid ingest payload. -/
def demoIngestGood : Webmention :=
  { source := some "https://brid.gy/comment/mastodon/xyz/", target := some "https://me.example/post",
    author := none, contentText := some "nice post", contentHtml := none, wmProperty := none }

/-- An invalid ingest payload: source equals target. -/
def demoIngestBad : Webmention :=
  { source := some "https://me.example/post", target := some "https://me.example/post",
    author := none, contentText := none, contentHtml := none, wmProperty := none }

/-- A raw Mastodon notification used by the pagination witness. -/
def demoRaw : MastoRaw :=
  { id := "42", type := "favourite", account_display_name := "Alice",
    account_username := "alice", account_url := "https://inst.example/@alice",
    account_avatar := "", status_url := some "https://inst.example/@me/11",
    status_content := none, status_in_reply_to_id := none,
    created_at := "2024-01-01T00:00:00Z" }

/-- Page oracle serving one full page of 40 notifications, then nothing. -/
def demoPagesFull : Option String → Option String → List MastoRaw :=
  fun _ maxId =>
    match maxId with
    | none => List.replicate 40 demoRaw
    | some _ => []

/-- Page oracle serving no notifications at all. -/
def demoPagesEmpty : Option String → Option String → List MastoRaw :=
  fun _ _ => []

/-- Two stored docs whose canonical URLs differ by a trailing slash. -/
def demoMentionStore : List ConvDoc :=
  [{ item := { demoItem1 with canonical_url := "https://me.example/p" },
     received_at := "2024-01-01T00:00:00Z", updated_at := "2024-01-01T00:00:00Z" },
   { item := { demoItem1 with canonical_url := "https://me.example/p/", platform_id := "mastodon:2" },
     received_at := "2024-01-02T00:00:00Z", updated_at := "2024-01-02T00:00:00Z" }]

/-!
Helper lemmas about the dedup store.
-/

theorem upsert_of_countKey_zero (store : List ConvDoc) (item : ConvItem) (now : String)
    (h : countKey store item.canonical_url item.platform_id = 0) :
    upsertConversationItem store item now =
      store ++ [{ item := item, received_at := now, updated_at := now }] := by
  induction store with
  | nil => rfl
  | cons d rest ih =>
    rw [countKey, List.countP_cons] at h
    by_cases hd : d.item.canonical_url = item.canonical_url ∧
        d.item.platform_id = item.platform_id
    · simp [hd] at h
    · simp only [upsertConversationItem, if_neg hd, List.cons_append, List.cons.injEq,
        true_and]
      apply ih
      simpa [countKey, hd] using h

theorem upsert_replaces_exact (store : List ConvDoc) (d0 : ConvDoc) (item : ConvItem)
    (now : String)
    (hcu : d0.item.canonical_url = item.canonical_url)
    (hpid : d0.item.platform_id = item.platform_id)
    (h : countKey store item.canonical_url item.platform_id = 0) :
    upsertConversationItem (store ++ [d0]) item now =
      store ++ [{ item := item, received_at := d0.received_at, updated_at := now }] := by
  induction store with
  | nil => simp [upsertConversationItem, hcu, hpid]
  | cons d rest ih =>
    rw [countKey, List.countP_cons] at h
    by_cases hd : d.item.canonical_url = item.canonical_url ∧
        d.item.platform_id = item.platform_id
    · simp [hd] at h
    · simp only [List.cons_append, upsertConversationItem, if_neg hd, List.cons.injEq,
        true_and]
      apply ih
      simpa [countKey, hd] using h

theorem countKey_append (s t : List ConvDoc) (cu pid : String) :
    countKey (s ++ t) cu pid = countKey s cu pid + countKey t cu pid := by
  simp [countKey, List.countP_append]

theorem upsert_preserves_item_invariant (P : ConvItem → Prop) :
    ∀ (store : List ConvDoc) (item : ConvItem) (now : String),
      (∀ d ∈ store, P d.item) → P item →
      ∀ d ∈ upsertConversationItem store item now, P d.item := by
  intro store
  induction store with
  | nil =>
    intro item now _ hitem d hd
    simp only [upsertConversationItem, List.mem_singleton] at hd
    subst hd
    exact hitem
  | cons d0 rest ih =>
    intro item now hstore hitem d hd
    by_cases hk : d0.item.canonical_url = item.canonical_url ∧
        d0.item.platform_id = item.platform_id
    · simp only [upsertConversationItem, if_pos hk, List.mem_cons] at hd
      rcases hd with hd | hd
      · subst hd; exact hitem
      · exact hstore d (List.mem_cons_of_mem _ hd)
    · simp only [upsertConversationItem, if_neg hk, List.mem_cons] at hd
      rcases hd with hd | hd
      · exact hd ▸ hstore d0 (List.mem_cons_self d0 rest)
      · exact ih item now (fun x hx => hstore x (List.mem_cons_of_mem _ hx)) hitem d hd

theorem applyUpserts_preserves (P : ConvItem → Prop) (items : List ConvItem) :
    ∀ (store : List ConvDoc) (now : String),
      (∀ d ∈ store, P d.item) → (∀ it ∈ items, P it) →
      ∀ d ∈ applyUpserts store items now, P d.item := by
  induction items with
  | nil =>
    intro store now hstore _ d hd
    exact hstore d hd
  | cons it rest ih =>
    intro store now hstore hitems d hd
    have h1 : ∀ d2 ∈ upsertConversationItem store it now, P d2.item :=
      upsert_preserves_item_invariant P store it now hstore
        (hitems it (List.mem_cons_self it rest))
    exact ih (upsertConversationItem store it now) now h1
      (fun x hx => hitems x (List.mem_cons_of_mem _ hx)) d hd

theorem upsert_length (store : List ConvDoc) (item : ConvItem) (now : String) :
    (upsertConversationItem store item now).length = store.length ∨
    (upsertConversationItem store item now).length = store.length + 1 := by
  induction store with
  | nil => right; rfl
  | cons d rest ih =>
    by_cases hk : d.item.canonical_url = item.canonical_url ∧
        d.item.platform_id = item.platform_id
    · left; simp [upsertConversationItem, if_pos hk]
    · rcases ih with h | h
      · left; simp [upsertConversationItem, if_neg hk, h]
      · right; simp [upsertConversationItem, if_neg hk, h]

/-- C1: upserting a conversation item twice with the same
(canonical_url, platform_id) pair, starting from a store holding no
document with that key, leaves exactly one stored document for the key;
that document carries the second call's payload fields, updated_at is the
second call's timestamp and received_at is the timestamp the first,
inserting, call set. -/
theorem upsert_twice_single_document (store : List ConvDoc) (item1 item2 : ConvItem)
    (t1 t2 : String)
    (hcu : item2.canonical_url = item1.canonical_url)
    (hpid : item2.platform_id = item1.platform_id)
    (h0 : countKey store item1.canonical_url item1.platform_id = 0) :
    upsertConversationItem (upsertConversationItem store item1 t1) item2 t2 =
      store ++ [{ item := item2, received_at := t1, updated_at := t2 }] ∧
    countKey (upsertConversationItem (upsertConversationItem store item1 t1) item2 t2)
      item1.canonical_url item1.platform_id = 1 := by
  have hfirst := upsert_of_countKey_zero store item1 t1 h0
  have h02 : countKey store item2.canonical_url item2.platform_id = 0 := by
    rw [hcu, hpid]; exact h0
  have hsecond := upsert_replaces_exact store
    { item := item1, received_at := t1, updated_at := t1 } item2 t2
    hcu.symm hpid.symm h02
  constructor
  · rw [hfirst]; exact hsecond
  · rw [hfirst, hsecond, countKey_append, h0]
    simp [countKey, hcu, hpid]

/-- Witness for C1 at a concrete store and item pair. -/
theorem upsert_twice_single_document_witness :
    upsertConversationItem (upsertConversationItem [] demoItem1 "t1") demoItem2 "t2" =
      [{ item := demoItem2, received_at := "t1", updated_at := "t2" }] ∧
    countKey (upsertConversationItem (upsertConversationItem [] demoItem1 "t1") demoItem2 "t2")
      demoItem1.canonical_url demoItem1.platform_id = 1 := by
  have h := upsert_twice_single_document [] demoItem1 demoItem2 "t1" "t2"
    (by decide) (by decide) (by decide)
  exact ⟨h.1, h.2⟩

/-- C2: the stored cursor of each polled source changes only on a
successful adapter result for that source.  A thrown adapter call writes
the last-poll timestamp and the error message but sends no cursor write,
so the stored cursor is unchanged; a successful Mastodon cycle with zero
notifications, or a successful Bluesky cycle without a truthy nextCursor,
also sends no cursor write; a non-empty Mastodon success writes the raw
id of the first notification; and neither source's update touches the
other source's cursor. -/
theorem poll_cursor_success_gated :
    ∀ (st : PollState) (e : PollError) (now : String) (n : MastoNotif)
      (ns : List MastoNotif) (items : List BskyNotif) (u : SourceUpdate),
      (mastodonUpdateFields (Except.error e) now).cursor = none ∧
      (applyMastodonUpdate st (mastodonUpdateFields (Except.error e) now)).mastodon_since_id
        = st.mastodon_since_id ∧
      (applyMastodonUpdate st (mastodonUpdateFields (Except.error e) now)).mastodon_last_poll
        = some now ∧
      (applyMastodonUpdate st (mastodonUpdateFields (Except.error e) now)).mastodon_last_error
        = some e.message ∧
      (mastodonUpdateFields (Except.ok []) now).cursor = none ∧
      (applyMastodonUpdate st (mastodonUpdateFields (Except.ok []) now)).mastodon_since_id
        = st.mastodon_since_id ∧
      (mastodonUpdateFields (Except.ok (n :: ns)) now).cursor = some n.raw_id ∧
      (blueskyUpdateFields (Except.error e) now).cursor = none ∧
      (applyBlueskyUpdate st (blueskyUpdateFields (Except.error e) now)).bluesky_cursor
        = st.bluesky_cursor ∧
      (applyBlueskyUpdate st (blueskyUpdateFields (Except.error e) now)).bluesky_last_poll
        = some now ∧
      (applyBlueskyUpdate st (blueskyUpdateFields (Except.error e) now)).bluesky_last_error
        = some e.message ∧
      (blueskyUpdateFields (Except.ok { items := items, cursor := none }) now).cursor = none ∧
      (applyBlueskyUpdate st
        (blueskyUpdateFields (Except.ok { items := items, cursor := none }) now)).bluesky_cursor
        = st.bluesky_cursor ∧
      (applyMastodonUpdate st u).bluesky_cursor = st.bluesky_cursor ∧
      (applyBlueskyUpdate st u).mastodon_since_id = st.mastodon_since_id := by
  intro st e now n ns items u
  refine ⟨rfl, rfl, rfl, rfl, rfl, rfl, rfl, rfl, rfl, rfl, rfl, ?_, ?_, rfl, rfl⟩ <;>
    simp [blueskyUpdateFields, applyBlueskyUpdate, jsTruthyStr]

/-- C3: after k consecutive backoff events starting from the default
interval of five minutes, the effective interval is the minimum of
default times two to the k and the thirty-minute maximum; one call of
resetInterval returns it to the default in a single step. -/
theorem backoff_interval_formula :
    (∀ k : Nat, iterBackoff k = min (DEFAULT_POLL_INTERVAL * 2 ^ k) MAX_POLL_INTERVAL) ∧
    (∀ cur : Nat, resetInterval true cur = DEFAULT_POLL_INTERVAL) := by
  have hb : ∀ x : Nat, backoff true x = min (x * 2) MAX_POLL_INTERVAL := by
    intro x
    simp only [backoff, Bool.not_true, Bool.false_eq_true, if_false]
    split <;> omega
  constructor
  · intro k
    induction k with
    | zero =>
      simp [iterBackoff, DEFAULT_POLL_INTERVAL, MAX_POLL_INTERVAL]
    | succ k ih =>
      rw [iterBackoff, hb, ih, pow_succ, ← mul_assoc]
      generalize DEFAULT_POLL_INTERVAL * 2 ^ k = A
      simp only [MAX_POLL_INTERVAL]
      omega
  · intro cur
    by_cases h : cur = DEFAULT_POLL_INTERVAL <;> simp [resetInterval, h]

/-- C4 counterexample: the shared interval, backed off to ten minutes by a
Bluesky rate-limit error, is reset to the default by a successful
Mastodon cycle in the very next cycle even though Bluesky, the source
that triggered the backoff, is still failing; the claim that only the
triggering source's success resets the interval is false on the code. -/
theorem cross_source_reset_counterexample :
    runPollCycleInterval true (Except.ok [])
      (Except.error { status := some 429, message := "Bluesky notifications failed: 429" })
      DEFAULT_POLL_INTERVAL = 600000 ∧
    runPollCycleInterval true (Except.ok [])
      (Except.error { status := some 500, message := "Bluesky notifications failed: 500" })
      600000 = DEFAULT_POLL_INTERVAL ∧
    DEFAULT_POLL_INTERVAL ≠ 600000 := by
  refine ⟨?_, ?_, ?_⟩ <;> decide

/-- C4 amended: the sources share one global interval, and a successful
cycle of any source resets it to the default, regardless of which source
triggered the backoff; only the recorded per-source error fields are
independent (one source's state write never touches the other source's
fields). -/
theorem any_source_success_resets_interval :
    ∀ (cur : Nat) (ns : List MastoNotif) (r : BskyResult) (st : PollState)
      (e : PollError) (now : String),
      pollMastodonInterval true (Except.ok ns) cur = DEFAULT_POLL_INTERVAL ∧
      pollBlueskyInterval true (Except.ok r) cur = DEFAULT_POLL_INTERVAL ∧
      (applyMastodonUpdate st (mastodonUpdateFields (Except.error e) now)).bluesky_last_error
        = st.bluesky_last_error ∧
      (applyBlueskyUpdate st (blueskyUpdateFields (Except.error e) now)).mastodon_last_error
        = st.mastodon_last_error := by
  intro cur ns r st e now
  refine ⟨?_, ?_, rfl, rfl⟩ <;>
    · simp only [pollMastodonInterval, pollBlueskyInterval]
      by_cases h : cur = DEFAULT_POLL_INTERVAL <;> simp [resetInterval, h]

theorem least_rule_unique (w : Webmention) (i i2 : Nat)
    (hi : rulePattern w i = true) (hmin : ∀ j, j < i → rulePattern w j = false)
    (hi2 : rulePattern w i2 = true) (hmin2 : ∀ j, j < i2 → rulePattern w j = false) :
    i2 = i := by
  rcases Nat.lt_trichotomy i2 i with h | h | h
  · rw [hmin i2 h] at hi2; exact absurd hi2 (by simp)
  · exact h
  · rw [hmin2 i h] at hi; exact absurd hi (by simp)

/-- C5: classifyWebmention is total with the five rules forming a strict
priority: for every input there is exactly one rule index that applies
first (its raw pattern holds and no earlier rule's does), and the result
is that rule's outcome; moreover any input whose source URL matches the
Bridgy relay pattern is classified by that rule with confidence high,
regardless of what the later patterns would say about its source or
author URL. -/
theorem classify_total_and_bridgy_priority :
    ∀ w : Webmention,
      (∃ i, i < 5 ∧ rulePattern w i = true ∧ (∀ j, j < i → rulePattern w j = false) ∧
         classifyWebmention w = ruleOutcome w i ∧
         ∀ i2, rulePattern w i2 = true → (∀ j, j < i2 → rulePattern w j = false) → i2 = i) ∧
      (∀ a p, bridgyMatch (wmSource w) = some (a, p) →
         classifyWebmention w =
           { source := mapBridgyPlatform p, type := mapBridgyAction a,
             bridgy_url := some (wmSource w), confidence := "high" }) := by
  intro w
  constructor
  · cases hb : bridgyMatch (wmSource w) with
    | some ap =>
      obtain ⟨a, p⟩ := ap
      have hp0 : rulePattern w 0 = true := by simp [rulePattern, hb]
      have hmin0 : ∀ j, j < 0 → rulePattern w j = false := by omega
      exact ⟨0, by omega, hp0, hmin0, by simp [classifyWebmention, ruleOutcome, hb],
        fun i2 hp2 hm2 => least_rule_unique w 0 i2 hp0 hmin0 hp2 hm2⟩
    | none =>
      cases hfed : jsIncludes (wmSource w) "fed.brid.gy" with
      | true =>
        have hp1 : rulePattern w 1 = true := by simp [rulePattern, hfed]
        have hmin1 : ∀ j, j < 1 → rulePattern w j = false := by
          intro j hj
          interval_cases j
          simp [rulePattern, hb]
        exact ⟨1, by omega, hp1, hmin1,
          by simp [classifyWebmention, ruleOutcome, hb, hfed],
          fun i2 hp2 hm2 => least_rule_unique w 1 i2 hp1 hmin1 hp2 hm2⟩
      | false =>
        cases hbsky : (jsIncludes (wmAuthorUrl w) "bsky.app" ||
            jsIncludes (wmSource w) "bsky.app") with
        | true =>
          have hp2 : rulePattern w 2 = true := by simp only [rulePattern]; exact hbsky
          have hmin2 : ∀ j, j < 2 → rulePattern w j = false := by
            intro j hj
            interval_cases j
            · simp [rulePattern, hb]
            · simp only [rulePattern]; exact hfed
          exact ⟨2, by omega, hp2, hmin2,
            by simp [classifyWebmention, ruleOutcome, hb, hfed, hbsky],
            fun i2 hpx hmx => least_rule_unique w 2 i2 hp2 hmin2 hpx hmx⟩
        | false =>
          cases hfedi : (isFediverseUrl (wmAuthorUrl w) ||
              isFediverseUrl (wmSource w)) with
          | true =>
            have hp3 : rulePattern w 3 = true := by simp only [rulePattern]; exact hfedi
            have hmin3 : ∀ j, j < 3 → rulePattern w j = false := by
              intro j hj
              interval_cases j
              · simp [rulePattern, hb]
              · simp only [rulePattern]; exact hfed
              · simp only [rulePattern]; exact hbsky
            exact ⟨3, by omega, hp3, hmin3,
              by simp [classifyWebmention, ruleOutcome, hb, hfed, hbsky, hfedi],
              fun i2 hpx hmx => least_rule_unique w 3 i2 hp3 hmin3 hpx hmx⟩
          | false =>
            have hp4 : rulePattern w 4 = true := by simp [rulePattern]
            have hmin4 : ∀ j, j < 4 → rulePattern w j = false := by
              intro j hj
              interval_cases j
              · simp [rulePattern, hb]
              · simp only [rulePattern]; exact hfed
              · simp only [rulePattern]; exact hbsky
              · simp only [rulePattern]; exact hfedi
            exact ⟨4, by omega, hp4, hmin4,
              by simp [classifyWebmention, ruleOutcome, hb, hfed, hbsky, hfedi],
              fun i2 hpx hmx => least_rule_unique w 4 i2 hp4 hmin4 hpx hmx⟩
  · intro a p hm
    simp [classifyWebmention, hm]

/-- Witness for C5: a source URL matching both the Bridgy relay pattern
and, through the author URL, the bsky.app social-app pattern is
classified by the Bridgy rule with confidence high. -/
theorem classify_total_and_bridgy_priority_witness :
    bridgyMatch (wmSource demoBridgyW) = some ("like", "bluesky") ∧
    jsIncludes (wmAuthorUrl demoBridgyW) "bsky.app" = true ∧
    classifyWebmention demoBridgyW =
      { source := "bluesky", type := "like",
        bridgy_url := some "https://brid.gy/like/bluesky/abc/", confidence := "high" } := by
  have hm : bridgyMatch (wmSource demoBridgyW) = some ("like", "bluesky") := by decide
  refine ⟨hm, by decide, ?_⟩
  have h := (classify_total_and_bridgy_priority demoBridgyW).2 "like" "bluesky" hm
  rw [h]
  decide

/-- C6: resolveCanonicalUrl returns the target unchanged and performs no
posts-collection lookup whenever the target starts with the site URL;
otherwise it performs the reverse lookup and returns the matched post's
canonical URL, or the target itself when nothing matches (an absent posts
collection yields no match); in every case the result is the target or a
found canonical URL, never a failure. -/
theorem resolveCanonicalUrl_spec :
    ∀ (posts : Option (List Post)) (targetUrl siteUrl : String),
      (jsStartsWith targetUrl siteUrl = true →
        resolveCanonicalUrlT posts targetUrl siteUrl = (targetUrl, false)) ∧
      (jsStartsWith targetUrl siteUrl = false →
        (resolveCanonicalUrlT posts targetUrl siteUrl).2 = true ∧
        resolveCanonicalUrl posts targetUrl siteUrl =
          (findCanonicalPost posts targetUrl).getD targetUrl) ∧
      findCanonicalPost none targetUrl = none ∧
      (resolveCanonicalUrl posts targetUrl siteUrl = targetUrl ∨
        ∃ u, findCanonicalPost posts targetUrl = some u ∧
          resolveCanonicalUrl posts targetUrl siteUrl = u) := by
  intro posts targetUrl siteUrl
  refine ⟨?_, ?_, rfl, ?_⟩
  · intro h
    simp [resolveCanonicalUrlT, h]
  · intro h
    constructor <;> simp [resolveCanonicalUrl, resolveCanonicalUrlT, h]
  · by_cases h : jsStartsWith targetUrl siteUrl = true
    · left
      simp [resolveCanonicalUrl, resolveCanonicalUrlT, h]
    · cases hf : findCanonicalPost posts targetUrl with
      | none =>
        left
        simp [resolveCanonicalUrl, resolveCanonicalUrlT, h, hf]
      | some u =>
        right
        exact ⟨u, rfl, by simp [resolveCanonicalUrl, resolveCanonicalUrlT, h, hf]⟩

/-- Witness for C6: a same-domain target comes back unchanged with no
lookup; a syndication URL resolves to the canonical post. -/
theorem resolveCanonicalUrl_spec_witness :
    resolveCanonicalUrlT demoPosts "https://me.example/other" "https://me.example" =
      ("https://me.example/other", false) ∧
    resolveCanonicalUrl demoPosts "https://inst.example/@me/11" "https://me.example" =
      "https://me.example/post" := by
  constructor
  · exact (resolveCanonicalUrl_spec demoPosts "https://me.example/other"
      "https://me.example").1 (by decide)
  · have h := ((resolveCanonicalUrl_spec demoPosts "https://inst.example/@me/11"
      "https://me.example").2.1 (by decide)).2
    rw [h]
    decide

/-- C7: with a non-empty resolved site URL, every item the ActivityPub
poll loop passes to the upsert carries source activitypub and a canonical
URL starting with the site URL; an interaction with a truthy canonical
URL outside the site is counted as skipped and never upserted; hence a
store in which every activitypub item is under the site keeps that
invariant through the whole cycle, so no activitypub item is ever
persisted with a foreign canonical URL. -/
theorem activitypub_skips_foreign_urls :
    ∀ (siteUrl : String) (items : List APInteraction),
      siteUrl ≠ "" →
      (∀ it ∈ (pollActivityPubUpserts siteUrl items).1,
         it.source = "activitypub" ∧ jsStartsWith it.canonical_url siteUrl = true) ∧
      (pollActivityPubUpserts siteUrl items).2 =
        items.countP (isSkippedInteraction siteUrl) ∧
      (∀ (store : List ConvDoc) (now : String),
        (∀ d ∈ store, d.item.source = "activitypub" →
          jsStartsWith d.item.canonical_url siteUrl = true) →
        ∀ d ∈ applyUpserts store (pollActivityPubUpserts siteUrl items).1 now,
          d.item.source = "activitypub" →
          jsStartsWith d.item.canonical_url siteUrl = true) := by
  intro siteUrl items hsite
  have h1 : ∀ it ∈ (pollActivityPubUpserts siteUrl items).1,
      it.source = "activitypub" ∧ jsStartsWith it.canonical_url siteUrl = true := by
    induction items with
    | nil =>
      intro it hit
      simp [pollActivityPubUpserts] at hit
    | cons i rest ih =>
      intro it hit
      cases hcu : i.canonical_url with
      | none =>
        simp only [pollActivityPubUpserts, hcu] at hit
        exact ih it hit
      | some cu =>
        by_cases hc : cu = ""
        · simp only [pollActivityPubUpserts, hcu, if_pos hc] at hit
          exact ih it hit
        · by_cases hsw : jsStartsWith cu siteUrl = true
          · have hcond : ¬ (siteUrl ≠ "" ∧ ¬ jsStartsWith cu siteUrl = true) := by
              simp [hsw]
            simp only [pollActivityPubUpserts, hcu, if_neg hc, if_neg hcond,
              List.mem_cons] at hit
            rcases hit with hit | hit
            · subst hit
              exact ⟨rfl, hsw⟩
            · exact ih it hit
          · have hcond : siteUrl ≠ "" ∧ ¬ jsStartsWith cu siteUrl = true := ⟨hsite, hsw⟩
            simp only [pollActivityPubUpserts, hcu, if_neg hc, if_pos hcond] at hit
            exact ih it hit
  refine ⟨h1, ?_, ?_⟩
  · clear h1
    induction items with
    | nil => rfl
    | cons i rest ih =>
      cases hcu : i.canonical_url with
      | none =>
        simp only [pollActivityPubUpserts, hcu, List.countP_cons]
        rw [ih]
        simp [isSkippedInteraction, hcu]
      | some cu =>
        by_cases hc : cu = ""
        · simp only [pollActivityPubUpserts, hcu, if_pos hc, List.countP_cons]
          rw [ih]
          simp [isSkippedInteraction, hcu, hc]
        · by_cases hsw : jsStartsWith cu siteUrl = true
          · have hcond : ¬ (siteUrl ≠ "" ∧ ¬ jsStartsWith cu siteUrl = true) := by
              simp [hsw]
            simp only [pollActivityPubUpserts, hcu, if_neg hc, if_neg hcond,
              List.countP_cons]
            rw [ih]
            simp [isSkippedInteraction, hcu, hc, hsw]
          · have hcond : siteUrl ≠ "" ∧ ¬ jsStartsWith cu siteUrl = true := ⟨hsite, hsw⟩
            simp only [pollActivityPubUpserts, hcu, if_neg hc, if_pos hcond,
              List.countP_cons]
            rw [ih]
            have hs : isSkippedInteraction siteUrl i = true := by
              simp [isSkippedInteraction, hcu, hc, hsite, hsw]
            simp [hs]
  · intro store now hstore d hd hsrc
    exact applyUpserts_preserves
      (fun itx => itx.source = "activitypub" → jsStartsWith itx.canonical_url siteUrl = true)
      (pollActivityPubUpserts siteUrl items).1 store now hstore
      (fun itx hx _ => (h1 itx hx).2) d hd hsrc

/-- Witness for C7: among three fetched interactions, the foreign one is
counted as the single skipped item. -/
theorem activitypub_skips_foreign_urls_witness :
    (pollActivityPubUpserts "https://me.example" demoAPItems).2 = 1 := by
  have h := activitypub_skips_foreign_urls "https://me.example" demoAPItems (by decide)
  rw [h.2.1]
  decide

/-- C8: the ingest endpoint answers 400 and leaves the store untouched
whenever source or target is missing, either fails URL validation, or
source equals target; any other payload is classified, its canonical URL
resolved, exactly one conversation item upserted, and the answer is a 202
acceptance carrying the classification. -/
theorem ingest_validation_and_upsert :
    ∀ (validUrl : String → Bool) (posts : Option (List Post)) (siteUrl : String)
      (store : List ConvDoc) (w : Webmention) (now : String),
      ((jsTruthyStr w.source = false ∨ jsTruthyStr w.target = false ∨
        validUrl (w.source.getD "") = false ∨ validUrl (w.target.getD "") = false ∨
        w.source.getD "" = w.target.getD "") →
        ∃ msg, ingest validUrl posts siteUrl store w now =
          (IngestResponse.badRequest msg, store)) ∧
      (jsTruthyStr w.source = true → jsTruthyStr w.target = true →
        validUrl (w.source.getD "") = true → validUrl (w.target.getD "") = true →
        w.source.getD "" ≠ w.target.getD "" →
        ingest validUrl posts siteUrl store w now =
          (IngestResponse.accepted (classifyWebmention w),
           upsertConversationItem store (ingestItem posts siteUrl w) now) ∧
        (ingestItem posts siteUrl w).canonical_url =
          resolveCanonicalUrl posts (w.target.getD "") siteUrl ∧
        ((upsertConversationItem store (ingestItem posts siteUrl w) now).length
            = store.length ∨
         (upsertConversationItem store (ingestItem posts siteUrl w) now).length
            = store.length + 1)) := by
  intro validUrl posts siteUrl store w now
  constructor
  · intro h
    by_cases h1 : jsTruthyStr w.source = true ∧ jsTruthyStr w.target = true
    · by_cases h2 : validUrl (w.source.getD "") = true ∧ validUrl (w.target.getD "") = true
      · by_cases h3 : w.source.getD "" = w.target.getD ""
        · exact ⟨"source and target must be different URLs",
            by simp [ingest, h1.1, h1.2, h2.1, h2.2, h3]⟩
        · rcases h with hf | hf | hf | hf | hf <;> simp_all
      · exact ⟨"source and target must be valid URLs",
          by simp [ingest, h1.1, h1.2, h2]⟩
    · exact ⟨"source and target are required", by simp [ingest, h1]⟩
  · intro hs ht hvs hvt hne
    refine ⟨?_, rfl, upsert_length store _ now⟩
    simp [ingest, hs, ht, hvs, hvt, hne]

/-- Witness for C8: a Bridgy comment payload is accepted and stored as one
item; a payload whose source equals its target is rejected with the store
unchanged. -/
theorem ingest_validation_and_upsert_witness :
    (ingest demoValidUrl demoPosts "https://me.example" [] demoIngestGood "t").1 =
      IngestResponse.accepted (classifyWebmention demoIngestGood) ∧
    (ingest demoValidUrl demoPosts "https://me.example" [] demoIngestGood "t").2.length = 1 ∧
    (ingest demoValidUrl demoPosts "https://me.example" [] demoIngestBad "t").2 = [] := by
  have hg := (ingest_validation_and_upsert demoValidUrl demoPosts "https://me.example"
    [] demoIngestGood "t").2 (by decide) (by decide) (by decide) (by decide) (by decide)
  obtain ⟨msg, hb⟩ := (ingest_validation_and_upsert demoValidUrl demoPosts
    "https://me.example" [] demoIngestBad "t").1
    (Or.inr (Or.inr (Or.inr (Or.inr (by decide)))))
  refine ⟨?_, ?_, ?_⟩
  · rw [hg.1]
  · rw [hg.1]
    decide
  · rw [hb]

theorem fetchLoop_bound (pages : Option String → Option String → List MastoRaw)
    (hpages : ∀ s m, (pages s m).length ≤ 40) :
    ∀ (fuel : Nat) (sinceId maxId : Option String) (acc : List MastoRaw),
      200 - acc.length ≤ fuel → acc.length % 40 = 0 → acc.length < 200 →
      (fetchLoop pages sinceId maxId acc).length ≤ 200 := by
  intro fuel
  induction fuel with
  | zero =>
    intro sinceId maxId acc hfuel hmod hlt
    omega
  | succ n ih =>
    intro sinceId maxId acc hfuel hmod hlt
    rw [fetchLoop]
    split
    · omega
    next h0 =>
      split
      next h1 =>
        have := hpages sinceId maxId
        simp only [List.length_append]
        omega
      next h1 =>
        split
        next h2 =>
          have := hpages sinceId maxId
          simp only [List.length_append] at h2 ⊢
          omega
        next h2 =>
          split
          · apply ih
            · have := hpages sinceId maxId
              simp only [List.length_append] at h2 ⊢
              omega
            · have := hpages sinceId maxId
              simp only [List.length_append]
              omega
            · simp only [List.length_append] at h2 ⊢
              omega
          · have := hpages sinceId maxId
            simp only [List.length_append]
            omega

/-- C9: the Mastodon fetch pagination always terminates (it is a total
function of the page oracle) and, when every page the API returns holds
at most the requested limit of 40 entries, the call returns at most 200
notifications; a first page already shorter than 40 ends the loop at once
with exactly that page. -/
theorem fetchMastodon_bounded :
    ∀ (pages : Option String → Option String → List MastoRaw) (sinceId : Option String),
      (∀ s m, (pages s m).length ≤ 40) →
      (fetchMastodonNotifications pages sinceId).length ≤ 200 ∧
      ((pages sinceId none).length < 40 →
        (fetchMastodonNotifications pages sinceId).length = (pages sinceId none).length) := by
  intro pages sinceId hpages
  constructor
  · rw [fetchMastodonNotifications, List.length_map]
    exact fetchLoop_bound pages hpages 200 sinceId none [] (by simp) (by simp) (by simp)
  · intro hshort
    rw [fetchMastodonNotifications, List.length_map]
    rw [fetchLoop]
    by_cases h0 : (pages sinceId none).length = 0
    · rw [dif_pos h0]
      simp only [List.length_nil]
      omega
    · rw [dif_neg h0, dif_pos hshort]
      simp

/-- Witness for C9: an oracle serving one full page of 40 then nothing
stays within the bound, and an oracle serving nothing returns nothing. -/
theorem fetchMastodon_bounded_witness :
    (fetchMastodonNotifications demoPagesFull none).length ≤ 200 ∧
    (fetchMastodonNotifications demoPagesEmpty none).length = 0 := by
  have h1 := fetchMastodon_bounded demoPagesFull none
    (by intro s m; cases m <;> simp [demoPagesFull])
  have h2 := (fetchMastodon_bounded demoPagesEmpty none
    (by intro s m; simp [demoPagesEmpty])).2 (by simp [demoPagesEmpty])
  refine ⟨h1.1, ?_⟩
  rw [h2]
  simp [demoPagesEmpty]

theorem strip_append_slash (u : String) : stripTrailingSlash (u ++ "/") = u := by
  cases u with
  | mk l =>
    have happ : (String.mk l ++ "/") = String.mk (l ++ ['/']) := rfl
    rw [happ]
    simp [stripTrailingSlash, List.getLast?_concat, List.dropLast_concat]

theorem strip_no_slash (u : String) (h : u.data.getLast? ≠ some '/') :
    stripTrailingSlash u = u := by
  unfold stripTrailingSlash
  split
  next heq => exact absurd heq h
  next => rfl

/-- C10: the mentions read endpoint strips one trailing slash from the
requested target and matches stored items whose canonical URL equals the
stripped value with or without one trailing slash; consequently a target
without a trailing slash and the same target with one return identical
results through the whole pipeline (same type filter and pagination). -/
theorem apiMentions_trailing_slash :
    ∀ (store : List ConvDoc) (u : String) (typeFilter : Option String)
      (skip limitN : Nat),
      (∀ d, d ∈ store.filter (fun x => mentionTargetMatch u x.item.canonical_url) ↔
        (d ∈ store ∧ (d.item.canonical_url = stripTrailingSlash u ∨
                      d.item.canonical_url = stripTrailingSlash u ++ "/"))) ∧
      (u.data.getLast? ≠ some '/' →
        apiMentionsItems store u typeFilter skip limitN =
          apiMentionsItems store (u ++ "/") typeFilter skip limitN) := by
  intro store u typeFilter skip limitN
  constructor
  · intro d
    simp [List.mem_filter, mentionTargetMatch]
  · intro h
    have hm : ∀ cu, mentionTargetMatch (u ++ "/") cu = mentionTargetMatch u cu := by
      intro cu
      unfold mentionTargetMatch
      rw [strip_append_slash, strip_no_slash u h]
    have hf : store.filter (apiMentionsPred (u ++ "/") typeFilter) =
        store.filter (apiMentionsPred u typeFilter) := by
      apply List.filter_congr
      intro d _
      unfold apiMentionsPred
      rw [hm]
    unfold apiMentionsItems
    rw [hf]

/-- Witness for C10: a target with and without the trailing slash selects
the same items from a store holding both spellings. -/
theorem apiMentions_trailing_slash_witness :
    apiMentionsItems demoMentionStore "https://me.example/p" none 0 50 =
      apiMentionsItems demoMentionStore "https://me.example/p/" none 0 50 :=
  (apiMentions_trailing_slash demoMentionStore "https://me.example/p" none 0 50).2
    (by decide)
